import Mathlib

/-!
Verification of the Bag-of-Visual-Words transformer implemented in
`codes/sift.py` (class `SIFT_FeatureExtractor`).

The Python class orchestrates two external collaborators:
* the SIFT descriptor extractor (`cv2.xfeatures2d.SIFT_create` / `detect` /
  `compute`), modelled here as an arbitrary function `dc` from extractor
  parameters and an image to the per-image descriptor result, and
* the k-means vocabulary learner (`sklearn.cluster.KMeans`), whose data
  validation (`fit` requires at least `n_clusters` samples, `predict`
  requires a fitted estimator and a non-empty 2-D array) is modelled
  explicitly and whose centroid choice is a deterministic parameter `learn`
  (the spec compares behaviours "when the learner is seeded
  deterministically").

Python exceptions are modelled by the inductive `Err`; a method that can
raise returns `Except Err _`.  Methods are state transformers on the
instance record: each returns the instance state after the call together
with the result, so that mutation (or its absence) is visible.
-/

namespace SIFTExt

/-- An image is opaque to the transformer: identity only, never inspected. -/
abbrev Image := Nat

/-- A descriptor: a real-valued vector, idealised over `ℚ`
(the Python code uses `float64`; no claim depends on rounding). -/
abbrev Vec := List ℚ

/-- Python exception kinds that can surface from the methods.
`insufficientDataError` and `notFittedError` are the error classes named by
the documentation (`NotFittedError` is also what `sklearn` raises from
`predict` on an unfitted estimator); `attributeError` and `valueError` are
the built-in Python exceptions. -/
inductive Err where
  | attributeError
  | notFittedError
  | valueError
  | insufficientDataError
deriving DecidableEq, Repr

/-- The per-image result of `sift.compute`: `numpy` array of dimension 1
(a single descriptor row) or 2 (one row per descriptor).  `fit`
distinguishes the two with `de.ndim == 1`; the whole result may also be
`None` (modelled as `Option.none` at the use sites). -/
inductive DesArray where
  | d1 (v : Vec)
  | d2 (rows : List Vec)
deriving DecidableEq, Repr

/-- Configuration of a `cv2` SIFT extractor object: the five tuning
parameters accepted by `SIFT_create`. -/
structure SiftParams where
  nfeatures : Int
  nOctaveLayers : Int
  contrastThreshold : ℚ
  edgeThreshold : ℚ
  sigma : ℚ
deriving DecidableEq, Repr

/-- A fitted `KMeans` model: its cluster count and learned centroids. -/
structure KMeansModel where
  n_clusters : Nat
  cluster_centers : List Vec
deriving DecidableEq, Repr

/-- The `self.kmeans` attribute: `KMeans(n_clusters=k)` is assigned before
`.fit` runs, so the attribute can hold an unfitted estimator. -/
inductive KMeansAttr where
  | unfitted (k : Nat)
  | fitted (m : KMeansModel)
deriving DecidableEq, Repr

/-- The `SIFT_FeatureExtractor` instance: the six configuration fields set
by `__init__`, plus the `self.sift` / `self.kmeans` attributes created by
`fit` / `fit_transform` (absent, i.e. `none`, on a fresh instance). -/
structure SIFT_FeatureExtractor where
  sift_nfeatures : Int
  sift_nOctaveLayers : Int
  sift_contrastThreshold : ℚ
  sift_edgeThreshold : ℚ
  sift_sigma : ℚ
  kmeans_nclusters : Nat
  sift : Option SiftParams
  kmeans : Option KMeansAttr
deriving DecidableEq, Repr

/-- `__init__`: stores the six configuration values; no extractor or
clustering model exists yet. -/
def init (nf nOct : Int) (ct et sg : ℚ) (k : Nat) : SIFT_FeatureExtractor :=
  { sift_nfeatures := nf
    sift_nOctaveLayers := nOct
    sift_contrastThreshold := ct
    sift_edgeThreshold := et
    sift_sigma := sg
    kmeans_nclusters := k
    sift := none
    kmeans := none }

/-- `__init__` with all defaults:
`SIFT_FeatureExtractor(0, 3, 0.04, 10, 1.6, 5)`. -/
def initDefault : SIFT_FeatureExtractor :=
  init 0 3 (4/100) 10 (8/5) 5

/-- The extractor `fit` builds:
`SIFT_create(nfeatures=..., nOctaveLayers=..., contrastThreshold=...,
edgeThreshold=..., sigma=...)` with all five configured values. -/
def mkSiftFull (s : SIFT_FeatureExtractor) : SiftParams :=
  { nfeatures := s.sift_nfeatures
    nOctaveLayers := s.sift_nOctaveLayers
    contrastThreshold := s.sift_contrastThreshold
    edgeThreshold := s.sift_edgeThreshold
    sigma := s.sift_sigma }

/-- The extractor `fit_transform` builds:
`SIFT_create(nfeatures=self.sift_nfeatures)` only, so the remaining four
parameters take the `cv2` library defaults `3, 0.04, 10, 1.6`. -/
def mkSiftNfeaturesOnly (s : SIFT_FeatureExtractor) : SiftParams :=
  { nfeatures := s.sift_nfeatures
    nOctaveLayers := 3
    contrastThreshold := 4/100
    edgeThreshold := 10
    sigma := 8/5 }

/-- The descriptor-stacking loop shared by `fit` and `fit_transform`:
starting from `np.empty(shape=(0,128))`, a per-image result of `None`
contributes nothing, a 1-dimensional array is appended as a single row
(`np.append(des_all, [de], axis=0)`), and a 2-dimensional array is appended
row-wise (`np.append(des_all, de, axis=0)`). -/
def stackDescriptors (des : List (Option DesArray)) : List Vec :=
  des.foldl
    (fun des_all de =>
      match de with
      | none => des_all
      | some (.d1 v) => des_all ++ [v]
      | some (.d2 rows) => des_all ++ rows)
    []

/-- `KMeans(n_clusters=k).fit(pool)`: `sklearn` validation raises
`ValueError` when the pool has fewer samples than `k` (this also covers the
empty pool) or when `k = 0`; otherwise the learner `learn` produces the
centroids. -/
def kmeansFit (learn : Nat → List Vec → List Vec) (k : Nat) (pool : List Vec) :
    Except Err KMeansModel :=
  if pool.length < k ∨ k = 0 then
    .error .valueError
  else
    .ok { n_clusters := k, cluster_centers := learn k pool }

/-- Squared Euclidean distance between two vectors. -/
def sqDist (u v : Vec) : ℚ :=
  (List.zipWith (fun a b => (a - b) ^ 2) u v).sum

/-- First index attaining the minimum in a running scan
(`np.argmin` tie-breaking: lowest index wins). -/
def argminAux : List ℚ → Nat → Nat → ℚ → Nat
  | [], _, best, _ => best
  | d :: ds, i, best, bestd =>
      if d < bestd then argminAux ds (i + 1) i d
      else argminAux ds (i + 1) best bestd

/-- Hard assignment of a descriptor to its nearest centroid
(`kmeans.predict` on one row): index of the closest centroid, ties broken
towards the lowest index. -/
def nearestCentroid (cs : List Vec) (v : Vec) : Nat :=
  match cs.map (sqDist v) with
  | [] => 0
  | d :: ds => argminAux ds 1 0 d

/-- The histogram row for one image, given the predicted labels of its
descriptors: `np.unique(labs, return_counts=True)` followed by the
`for j in range(self.kmeans_nclusters)` fill loop writes, for each
`j < k`, the number of labels equal to `j` (0 when `j` is absent), into a
row initialised by `np.zeros`. -/
def histRow (k : Nat) (labs : List Nat) : List Nat :=
  (List.range k).map (fun j => labs.count j)

/-- One iteration of the transformation loop of `transform` /
`fit_transform`, for one image's descriptor result `de`:
`labs = self.kmeans.predict(de.astype(np.float64)) if de is not None else []`.
When `de is None` no attribute is touched and the row stays all zeros;
otherwise `self.kmeans` must exist (`AttributeError`), be fitted
(`sklearn` raises `NotFittedError` from `check_is_fitted`), and `predict`
rejects a 1-dimensional or empty array with `ValueError`
(`check_array` requires a 2-D input with at least one sample). -/
def imageRow (k : Nat) (km : Option KMeansAttr) :
    Option DesArray → Except Err (List Nat)
  | none => .ok (histRow k [])
  | some da =>
    match km with
    | none => .error .attributeError
    | some (.unfitted _) => .error .notFittedError
    | some (.fitted m) =>
      match da with
      | .d1 _ => .error .valueError
      | .d2 rows =>
        if rows.isEmpty then .error .valueError
        else .ok (histRow k (rows.map (nearestCentroid m.cluster_centers)))

/-- `fit(X)`: build the full-parameter extractor and assign it to
`self.sift`, extract descriptors of every image, stack them, assign
`self.kmeans = KMeans(n_clusters=self.kmeans_nclusters)` and run its `fit`
on the pool.  Returns the post-call state and the outcome; on a clustering
failure the extractor and the (unfitted) estimator have already been
assigned. -/
def fit (dc : SiftParams → Image → Option DesArray)
    (learn : Nat → List Vec → List Vec)
    (s : SIFT_FeatureExtractor) (X : List Image) :
    SIFT_FeatureExtractor × Except Err Unit :=
  let sift := mkSiftFull s
  let des := X.map (dc sift)
  let des_all := stackDescriptors des
  let s1 := { s with sift := some sift,
                     kmeans := some (.unfitted s.kmeans_nclusters) }
  match kmeansFit learn s.kmeans_nclusters des_all with
  | .error e => (s1, .error e)
  | .ok m => ({ s1 with kmeans := some (.fitted m) }, .ok ())

/-- `transform(X)`: `self.sift.detect` raises `AttributeError` when the
extractor attribute is absent; otherwise descriptors are re-extracted with
the stored extractor and each image is turned into its histogram row.  No
attribute is assigned anywhere in the body, so the state is returned
unchanged. -/
def transform (dc : SiftParams → Image → Option DesArray)
    (s : SIFT_FeatureExtractor) (X : List Image) :
    SIFT_FeatureExtractor × Except Err (List (List Nat)) :=
  match s.sift with
  | none => (s, .error .attributeError)
  | some sift =>
    let des := X.map (dc sift)
    (s, des.mapM (imageRow s.kmeans_nclusters s.kmeans))

/-- `fit_transform(X)`: same pipeline as `fit` followed by the
transformation loop reusing the already-extracted descriptors, except that
the extractor is created as `SIFT_create(nfeatures=self.sift_nfeatures)`
with the other four parameters left at the `cv2` defaults. -/
def fit_transform (dc : SiftParams → Image → Option DesArray)
    (learn : Nat → List Vec → List Vec)
    (s : SIFT_FeatureExtractor) (X : List Image) :
    SIFT_FeatureExtractor × Except Err (List (List Nat)) :=
  let sift := mkSiftNfeaturesOnly s
  let des := X.map (dc sift)
  let des_all := stackDescriptors des
  let s1 := { s with sift := some sift,
                     kmeans := some (.unfitted s.kmeans_nclusters) }
  match kmeansFit learn s.kmeans_nclusters des_all with
  | .error e => (s1, .error e)
  | .ok m =>
    let s2 := { s1 with kmeans := some (.fitted m) }
    (s2, des.mapM (imageRow s.kmeans_nclusters s2.kmeans))

/-- The shape of a `cv2` `compute` result under the extractor contract of the
documentation: either no descriptors (`None`) or a non-empty 2-D array. -/
def cvShape : Option DesArray → Bool
  | none => true
  | some (.d2 (_ :: _)) => true
  | _ => false

/-- Number of detected descriptors in a per-image extraction result. -/
def numDescriptors : Option DesArray → Nat
  | none => 0
  | some (.d1 _) => 1
  | some (.d2 rows) => rows.length

/-- All rows of a per-image extraction result have width 128. -/
def rows128 : Option DesArray → Bool
  | none => true
  | some (.d1 v) => v.length == 128
  | some (.d2 rows) => rows.all (fun r => r.length == 128)

/-- The rows a per-image extraction result contributes to the pool. -/
def desRows : Option DesArray → List Vec
  | none => []
  | some (.d1 v) => [v]
  | some (.d2 rows) => rows

/-! ### General lemmas -/

theorem argminAux_lt_or_eq (ds : List ℚ) :
    ∀ i best bestd, argminAux ds i best bestd < i + ds.length ∨
      argminAux ds i best bestd = best := by
  induction ds with
  | nil => intro i best bestd; right; rfl
  | cons d ds ih =>
    intro i best bestd
    simp only [argminAux]
    by_cases h : d < bestd
    · simp only [if_pos h]
      rcases ih (i + 1) i d with h1 | h1
      · left; simpa [Nat.add_comm, Nat.add_left_comm] using h1
      · left; rw [h1]; simp [Nat.lt_add_of_pos_right, Nat.succ_le_iff]
    · simp only [if_neg h]
      rcases ih (i + 1) best bestd with h1 | h1
      · left; simpa [Nat.add_comm, Nat.add_left_comm] using h1
      · right; exact h1

theorem nearestCentroid_lt (cs : List Vec) (v : Vec) (h : cs ≠ []) :
    nearestCentroid cs v < cs.length := by
  unfold nearestCentroid
  cases cs with
  | nil => exact absurd rfl h
  | cons c cs =>
    simp only [List.map_cons]
    rcases argminAux_lt_or_eq (cs.map (sqDist v)) 1 0 (sqDist v c) with h1 | h1
    · simpa [Nat.add_comm] using h1
    · rw [h1]; simp

theorem histRow_length (k : Nat) (labs : List Nat) : (histRow k labs).length = k := by
  simp [histRow]

theorem histRow_get? (k : Nat) (labs : List Nat) (j : Nat) (hj : j < k) :
    (histRow k labs).get? j = some (labs.count j) := by
  simp [histRow, List.get?_eq_getElem?, List.getElem?_map, List.getElem?_range hj]

theorem histRow_nil (k : Nat) : histRow k [] = List.replicate k 0 := by
  simp [histRow, List.map_const']

theorem sum_indicator_range (k a : Nat) (h : a < k) :
    ((List.range k).map (fun j => if j = a then 1 else 0)).sum = 1 := by
  induction k with
  | zero => omega
  | succ k ih =>
    rw [List.range_succ, List.map_append, List.sum_append]
    rcases Nat.lt_or_ge a k with h1 | h1
    · have hne : ¬(k = a) := by omega
      simp [ih h1, hne]
    · have ha : a = k := by omega
      have hz : ∀ j ∈ List.range k, (if j = a then 1 else 0) = 0 := by
        intro j hj
        have := List.mem_range.mp hj
        simp [show ¬(j = a) by omega]
      rw [List.map_congr_left hz]
      simp [ha]

theorem histRow_sum (k : Nat) (labs : List Nat) (h : ∀ l ∈ labs, l < k) :
    (histRow k labs).sum = labs.length := by
  induction labs with
  | nil => simp [histRow]
  | cons a t ih =>
    have ha : a < k := h a (List.mem_cons_self a t)
    have ht : ∀ l ∈ t, l < k := fun l hl => h l (List.mem_cons_of_mem a hl)
    have expand : ∀ j, (a :: t).count j = t.count j + (if j = a then 1 else 0) := by
      intro j
      rcases eq_or_ne j a with hja | hja
      · subst hja; simp [List.count_cons_self]
      · simp [List.count_cons_of_ne hja, hja]
    calc (histRow k (a :: t)).sum
        = ((List.range k).map (fun j => t.count j + (if j = a then 1 else 0))).sum := by
          simp only [histRow]
          exact congrArg _ (List.map_congr_left fun j _ => expand j)
      _ = (histRow k t).sum + ((List.range k).map (fun j => if j = a then 1 else 0)).sum := by
          simp [histRow, List.sum_map_add]
      _ = t.length + 1 := by rw [ih ht, sum_indicator_range k a ha]
      _ = (a :: t).length := by simp [Nat.add_comm]

/-- `mapM` over `Except` succeeds elementwise: if every element maps to a
success, the whole list maps to the list of per-element results, in
order. -/
theorem mapM_ok {α β : Type} (f : α → Except Err β) (l : List α)
    (h : ∀ a ∈ l, ∃ b, f a = .ok b) :
    ∃ bs, l.mapM f = .ok bs ∧ bs.length = l.length ∧
      ∀ i (hi : i < l.length), ∃ b, f (l.get ⟨i, hi⟩) = .ok b ∧ bs.get? i = some b := by
  induction l with
  | nil => exact ⟨[], rfl, rfl, fun i hi => absurd hi (Nat.not_lt_zero i)⟩
  | cons a t ih =>
    obtain ⟨b, hb⟩ := h a (List.mem_cons_self a t)
    obtain ⟨bs, hbs, hlen, hidx⟩ := ih (fun x hx => h x (List.mem_cons_of_mem a hx))
    refine ⟨b :: bs, ?_, by simp [hlen], ?_⟩
    · rw [List.mapM_cons, hb, hbs]; rfl
    · intro i hi
      cases i with
      | zero => exact ⟨b, hb, rfl⟩
      | succ i =>
        have hi' : i < t.length := by simpa using hi
        obtain ⟨b', hb', hbs'⟩ := hidx i hi'
        exact ⟨b', hb', by simpa using hbs'⟩

theorem stackDescriptors_eq_flatten (des : List (Option DesArray)) :
    stackDescriptors des = (des.map desRows).flatten := by
  have aux : ∀ (l : List (Option DesArray)) (acc : List Vec),
      l.foldl
        (fun des_all de =>
          match de with
          | none => des_all
          | some (.d1 v) => des_all ++ [v]
          | some (.d2 rows) => des_all ++ rows)
        acc = acc ++ (l.map desRows).flatten := by
    intro l
    induction l with
    | nil => intro acc; simp
    | cons de t ih =>
      intro acc
      cases de with
      | none => simpa [desRows] using ih acc
      | some da =>
        cases da with
        | d1 v => simp [desRows, ih (acc ++ [v])]
        | d2 rows => simp [desRows, ih (acc ++ rows)]
  simpa using aux des []

theorem numDescriptors_eq_length_desRows (da : Option DesArray) :
    numDescriptors da = (desRows da).length := by
  cases da with
  | none => rfl
  | some d => cases d <;> rfl

theorem cvShape_cases (de : Option DesArray) (h : cvShape de = true) :
    de = none ∨ ∃ r rs, de = some (.d2 (r :: rs)) := by
  cases de with
  | none => exact Or.inl rfl
  | some da =>
    cases da with
    | d1 v => simp [cvShape] at h
    | d2 rows =>
      cases rows with
      | nil => simp [cvShape] at h
      | cons r rs => exact Or.inr ⟨r, rs, rfl⟩

theorem imageRow_d2 (k : Nat) (m : KMeansModel) (r : Vec) (rs : List Vec) :
    imageRow k (some (.fitted m)) (some (.d2 (r :: rs))) =
      .ok (histRow k ((r :: rs).map (nearestCentroid m.cluster_centers))) := by
  simp [imageRow]

theorem imageRow_ok (k : Nat) (m : KMeansModel) (de : Option DesArray)
    (hde : cvShape de = true) :
    ∃ row, imageRow k (some (.fitted m)) de = .ok row := by
  rcases cvShape_cases de hde with h | ⟨r, rs, h⟩
  · exact ⟨histRow k [], by rw [h]; rfl⟩
  · exact ⟨_, by rw [h, imageRow_d2]⟩

theorem imageRow_length (k : Nat) (km : Option KMeansAttr) (de : Option DesArray)
    (row : List Nat) (h : imageRow k km de = .ok row) : row.length = k := by
  cases de with
  | none =>
    simp only [imageRow] at h
    cases h
    exact histRow_length k []
  | some da =>
    cases km with
    | none => simp [imageRow] at h
    | some ka =>
      cases ka with
      | unfitted _ => simp [imageRow] at h
      | fitted m =>
        cases da with
        | d1 v => simp [imageRow] at h
        | d2 rows =>
          cases rows with
          | nil => simp [imageRow] at h
          | cons r rs =>
            rw [imageRow_d2] at h
            cases h
            exact histRow_length _ _

/-! ### Concrete instantiation material

A deterministic stand-in extractor, a deterministic (seeded) learner and a
fitted instance, used to evaluate the theorems on concrete inputs. -/

/-- A stand-in descriptor extractor: image `0` has three descriptors,
image `1` has none, any other image has one. -/
def dcW : SiftParams → Image → Option DesArray := fun _ x =>
  if x = 0 then some (.d2 [[0], [1], [1]])
  else if x = 1 then none
  else some (.d2 [[1]])

/-- A deterministic (seeded) vocabulary learner: the first `k` pool
vectors become the centroids. -/
def learnW : Nat → List Vec → List Vec := fun k pool => pool.take k

/-- One concrete one-centroid vocabulary. -/
def mW1 : KMeansModel := { n_clusters := 1, cluster_centers := [[0]] }

/-- A concrete fitted instance with vocabulary size 1. -/
def sFitted : SIFT_FeatureExtractor :=
  { sift_nfeatures := 0
    sift_nOctaveLayers := 3
    sift_contrastThreshold := 4/100
    sift_edgeThreshold := 10
    sift_sigma := 8/5
    kmeans_nclusters := 1
    sift := some (mkSiftFull initDefault)
    kmeans := some (.fitted mW1) }

/-! ### Claim C1 -/

/-- C1: for every fitted instance and every input image sequence of length
`n`, `transform(images)` returns a matrix with exactly `n` rows and exactly
`vocabularySize` (`kmeans_nclusters`) columns, where row `i` is the
histogram for image `i`, in input order (each row is the `imageRow` of the
descriptors extracted, with the stored extractor, from the image at the
same index). -/
theorem C1_transform_shape
    (dc : SiftParams → Image → Option DesArray)
    (s : SIFT_FeatureExtractor) (X : List Image)
    (p : SiftParams) (m : KMeansModel)
    (hs : s.sift = some p)
    (hk : s.kmeans = some (.fitted m))
    (hctr : ∀ x ∈ X, cvShape (dc p x) = true) :
    ∃ M, (transform dc s X).snd = .ok M ∧
      M.length = X.length ∧
      (∀ row ∈ M, row.length = s.kmeans_nclusters) ∧
      ∀ i (hi : i < X.length),
        ∃ row, imageRow s.kmeans_nclusters s.kmeans (dc p (X.get ⟨i, hi⟩)) = .ok row ∧
          M.get? i = some row := by
  obtain ⟨M, hM, hMlen, hidx⟩ :=
    mapM_ok (imageRow s.kmeans_nclusters s.kmeans) (X.map (dc p))
      (by
        intro de hde
        obtain ⟨x, hx, rfl⟩ := List.mem_map.mp hde
        rw [hk]
        exact imageRow_ok _ m _ (hctr x hx))
  refine ⟨M, ?_, by simpa using hMlen, ?_, ?_⟩
  · simp only [transform, hs]
    exact hM
  · intro row hrow
    obtain ⟨i, hMi⟩ := List.mem_iff_get?.mp hrow
    have hiM : i < M.length := by
      rcases List.get?_eq_some.mp hMi with ⟨h, _⟩
      exact h
    have hi' : i < (X.map (dc p)).length := by rw [← hMlen]; exact hiM
    obtain ⟨row', hrow', hMi'⟩ := hidx i hi'
    have : row' = row := by
      rw [hMi] at hMi'
      exact (Option.some.injEq _ _ ▸ hMi').symm
    subst this
    exact imageRow_length _ _ _ _ hrow'
  · intro i hi
    have hi' : i < (X.map (dc p)).length := by simpa using hi
    obtain ⟨row, hrow, hMi⟩ := hidx i hi'
    refine ⟨row, ?_, hMi⟩
    simp only [List.get_eq_getElem, List.getElem_map] at hrow
    simp only [List.get_eq_getElem]
    exact hrow

/-- Witness for C1: the fitted one-cluster instance `sFitted` on the
two-image batch `[0, 1]`. -/
theorem C1_transform_shape_witness :
    ∃ M, (transform dcW sFitted [0, 1]).snd = .ok M ∧
      M.length = ([0, 1] : List Image).length ∧
      (∀ row ∈ M, row.length = sFitted.kmeans_nclusters) ∧
      ∀ i (hi : i < ([0, 1] : List Image).length),
        ∃ row, imageRow sFitted.kmeans_nclusters sFitted.kmeans
            (dcW (mkSiftFull initDefault) (([0, 1] : List Image).get ⟨i, hi⟩)) = .ok row ∧
          M.get? i = some row :=
  C1_transform_shape dcW sFitted [0, 1] (mkSiftFull initDefault) mW1 rfl rfl (by decide)

/-- Helper: on a fitted instance, under the extractor contract, `transform`
succeeds and row `i` is the `imageRow` of image `i`'s descriptors. -/
theorem transform_rows
    (dc : SiftParams → Image → Option DesArray)
    (s : SIFT_FeatureExtractor) (X : List Image)
    (p : SiftParams) (m : KMeansModel)
    (hs : s.sift = some p)
    (hk : s.kmeans = some (.fitted m))
    (hctr : ∀ x ∈ X, cvShape (dc p x) = true) :
    ∃ M, (transform dc s X).snd = .ok M ∧
      M.length = X.length ∧
      ∀ i (hi : i < X.length),
        ∃ row, imageRow s.kmeans_nclusters s.kmeans (dc p (X.get ⟨i, hi⟩)) = .ok row ∧
          M.get? i = some row := by
  obtain ⟨M, hM, hMlen, hidx⟩ :=
    mapM_ok (imageRow s.kmeans_nclusters s.kmeans) (X.map (dc p))
      (by
        intro de hde
        obtain ⟨x, hx, rfl⟩ := List.mem_map.mp hde
        rw [hk]
        exact imageRow_ok _ m _ (hctr x hx))
  refine ⟨M, ?_, by simpa using hMlen, ?_⟩
  · simp only [transform, hs]
    exact hM
  · intro i hi
    have hi' : i < (X.map (dc p)).length := by simpa using hi
    obtain ⟨row, hrow, hMi⟩ := hidx i hi'
    refine ⟨row, ?_, hMi⟩
    simp only [List.get_eq_getElem, List.getElem_map] at hrow
    simp only [List.get_eq_getElem]
    exact hrow

/-! ### Claim C4 -/

/-- C4: for every fitted instance, `transform` gives an all-zero row to an
image with zero detected descriptors, and within any image's row every
centroid index matched by no descriptor of that image has entry exactly
`0`. -/
theorem C4_zero_counts
    (dc : SiftParams → Image → Option DesArray)
    (s : SIFT_FeatureExtractor) (X : List Image)
    (p : SiftParams) (m : KMeansModel)
    (hs : s.sift = some p)
    (hk : s.kmeans = some (.fitted m))
    (hctr : ∀ x ∈ X, cvShape (dc p x) = true) :
    ∃ M, (transform dc s X).snd = .ok M ∧
      (∀ i (hi : i < X.length), dc p (X.get ⟨i, hi⟩) = none →
        M.get? i = some (List.replicate s.kmeans_nclusters 0)) ∧
      ∀ i (hi : i < X.length) (rows : List Vec) (j : Nat),
        dc p (X.get ⟨i, hi⟩) = some (.d2 rows) →
        j < s.kmeans_nclusters →
        (∀ d ∈ rows, nearestCentroid m.cluster_centers d ≠ j) →
        ∃ row, M.get? i = some row ∧ row.get? j = some 0 := by
  obtain ⟨M, hM, _, hidx⟩ := transform_rows dc s X p m hs hk hctr
  refine ⟨M, hM, ?_, ?_⟩
  · intro i hi hnone
    obtain ⟨row, hrow, hMi⟩ := hidx i hi
    rw [hnone] at hrow
    have : row = histRow s.kmeans_nclusters [] := by
      simpa [imageRow] using hrow.symm
    rw [hMi, this, histRow_nil]
  · intro i hi rows j hd2 hj hmiss
    obtain ⟨row, hrow, hMi⟩ := hidx i hi
    rw [hd2, hk] at hrow
    cases rows with
    | nil => simp [imageRow] at hrow
    | cons r rs =>
      rw [imageRow_d2] at hrow
      have hrw : row = histRow s.kmeans_nclusters
          ((r :: rs).map (nearestCentroid m.cluster_centers)) := by
        simpa using hrow.symm
      refine ⟨row, hMi, ?_⟩
      rw [hrw, histRow_get? _ _ _ hj]
      have : j ∉ (r :: rs).map (nearestCentroid m.cluster_centers) := by
        intro hmem
        obtain ⟨d, hd, hdj⟩ := List.mem_map.mp hmem
        exact hmiss d hd hdj
      rw [List.count_eq_zero.mpr this]

/-- Witness for C4: `sFitted` on `[0, 1]`; image `1` has no descriptors. -/
theorem C4_zero_counts_witness :
    ∃ M, (transform dcW sFitted [0, 1]).snd = .ok M ∧
      (∀ i (hi : i < ([0, 1] : List Image).length),
        dcW (mkSiftFull initDefault) (([0, 1] : List Image).get ⟨i, hi⟩) = none →
        M.get? i = some (List.replicate sFitted.kmeans_nclusters 0)) ∧
      ∀ i (hi : i < ([0, 1] : List Image).length) (rows : List Vec) (j : Nat),
        dcW (mkSiftFull initDefault) (([0, 1] : List Image).get ⟨i, hi⟩) = some (.d2 rows) →
        j < sFitted.kmeans_nclusters →
        (∀ d ∈ rows, nearestCentroid mW1.cluster_centers d ≠ j) →
        ∃ row, M.get? i = some row ∧ row.get? j = some 0 :=
  C4_zero_counts dcW sFitted [0, 1] (mkSiftFull initDefault) mW1 rfl rfl (by decide)

/-! ### Claim C5 -/

/-- C5: for every fitted instance whose vocabulary really has
`kmeans_nclusters` centroids, the sum of the entries of each image's output
row equals the number of descriptors detected for that image. -/
theorem C5_row_sums
    (dc : SiftParams → Image → Option DesArray)
    (s : SIFT_FeatureExtractor) (X : List Image)
    (p : SiftParams) (m : KMeansModel)
    (hs : s.sift = some p)
    (hk : s.kmeans = some (.fitted m))
    (hctr : ∀ x ∈ X, cvShape (dc p x) = true)
    (hcent : m.cluster_centers.length = s.kmeans_nclusters)
    (hpos : 0 < s.kmeans_nclusters) :
    ∃ M, (transform dc s X).snd = .ok M ∧
      ∀ i (hi : i < X.length),
        ∃ row, M.get? i = some row ∧
          row.sum = numDescriptors (dc p (X.get ⟨i, hi⟩)) := by
  obtain ⟨M, hM, _, hidx⟩ := transform_rows dc s X p m hs hk hctr
  refine ⟨M, hM, ?_⟩
  intro i hi
  obtain ⟨row, hrow, hMi⟩ := hidx i hi
  have hx : X.get ⟨i, hi⟩ ∈ X := List.get_mem X i hi
  rcases cvShape_cases _ (hctr _ hx) with hnone | ⟨r, rs, hd2⟩
  · rw [hnone] at hrow ⊢
    have : row = histRow s.kmeans_nclusters [] := by
      simpa [imageRow] using hrow.symm
    refine ⟨row, hMi, ?_⟩
    rw [this, histRow_sum _ _ (by simp)]
    rfl
  · rw [hd2, hk] at hrow
    rw [imageRow_d2] at hrow
    have hrw : row = histRow s.kmeans_nclusters
        ((r :: rs).map (nearestCentroid m.cluster_centers)) := by
      simpa using hrow.symm
    refine ⟨row, hMi, ?_⟩
    have hlabs : ∀ l ∈ (r :: rs).map (nearestCentroid m.cluster_centers),
        l < s.kmeans_nclusters := by
      intro l hl
      obtain ⟨d, _, rfl⟩ := List.mem_map.mp hl
      have hne : m.cluster_centers ≠ [] := by
        intro hnil
        rw [hnil] at hcent
        simp at hcent
        omega
      calc nearestCentroid m.cluster_centers d < m.cluster_centers.length :=
            nearestCentroid_lt _ _ hne
        _ = s.kmeans_nclusters := hcent
    rw [hrw, histRow_sum _ _ hlabs, hd2]
    simp [numDescriptors]

/-- Witness for C5: `sFitted` on `[0, 1]` (three descriptors for image `0`,
none for image `1`). -/
theorem C5_row_sums_witness :
    ∃ M, (transform dcW sFitted [0, 1]).snd = .ok M ∧
      ∀ i (hi : i < ([0, 1] : List Image).length),
        ∃ row, M.get? i = some row ∧
          row.sum = numDescriptors
            (dcW (mkSiftFull initDefault) (([0, 1] : List Image).get ⟨i, hi⟩)) :=
  C5_row_sums dcW sFitted [0, 1] (mkSiftFull initDefault) mW1 rfl rfl (by decide)
    rfl (by decide)

/-! ### Claim C2 -/

/-- C2 counterexample: on a freshly-constructed instance, `transform` fails,
but with `AttributeError` (the `self.sift` attribute does not exist), not
with `NotFittedError` as claimed. -/
theorem C2_counterexample :
    (transform dcW initDefault [0]).snd = .error .attributeError ∧
    (transform dcW initDefault [0]).snd ≠ .error .notFittedError := by
  refine ⟨rfl, ?_⟩
  intro h
  have h2 : Err.attributeError = Err.notFittedError := Except.error.inj h
  exact Err.noConfusion h2

/-- C2 amended: for every instance on which neither `fit` nor
`fit_transform` has been called (no `sift` attribute), `transform` fails
with `AttributeError` (raised on the `self.sift.detect` access), leaving
the instance unchanged. -/
theorem C2_unfitted_attributeError
    (dc : SiftParams → Image → Option DesArray)
    (s : SIFT_FeatureExtractor) (X : List Image)
    (h : s.sift = none) :
    (transform dc s X).snd = .error .attributeError ∧
    (transform dc s X).fst = s := by
  constructor <;> simp [transform, h]

/-- Witness for the amended C2: the default fresh instance. -/
theorem C2_unfitted_attributeError_witness :
    (transform dcW initDefault [0, 1]).snd = .error .attributeError ∧
    (transform dcW initDefault [0, 1]).fst = initDefault :=
  C2_unfitted_attributeError dcW initDefault [0, 1] rfl

/-! ### Claim C3 -/

/-- C3 counterexample: fitting on a batch whose only image yields no
descriptors (empty pool) fails, but with the clustering library's
`ValueError`, not with an `InsufficientDataError` — no such error class
exists anywhere in the code, which performs no pool-size check of its
own. -/
theorem C3_counterexample :
    stackDescriptors (([1] : List Image).map (dcW (mkSiftFull initDefault))) = [] ∧
    (fit dcW learnW initDefault [1]).snd = .error .valueError ∧
    (fit dcW learnW initDefault [1]).snd ≠ .error .insufficientDataError := by
  refine ⟨rfl, rfl, ?_⟩
  intro h
  have h2 : Err.valueError = Err.insufficientDataError := Except.error.inj h
  exact Err.noConfusion h2

/-- C3 amended: `fit` performs no explicit insufficient-data check and
raises no `InsufficientDataError`; it always hands the pool to the
vocabulary learner, whose own validation raises `ValueError` exactly when
the pool is smaller than `kmeans_nclusters` (which covers an empty pool)
or the cluster count is zero; otherwise clustering runs and its centroids
are stored. -/
theorem C3_fit_pool_check
    (dc : SiftParams → Image → Option DesArray)
    (learn : Nat → List Vec → List Vec)
    (s : SIFT_FeatureExtractor) (X : List Image) :
    (((stackDescriptors (X.map (dc (mkSiftFull s)))).length < s.kmeans_nclusters ∨
        s.kmeans_nclusters = 0) →
      (fit dc learn s X).snd = .error .valueError) ∧
    (s.kmeans_nclusters ≤ (stackDescriptors (X.map (dc (mkSiftFull s)))).length →
      s.kmeans_nclusters ≠ 0 →
      (fit dc learn s X).snd = .ok () ∧
      (fit dc learn s X).fst.kmeans = some (.fitted
        { n_clusters := s.kmeans_nclusters
          cluster_centers :=
            learn s.kmeans_nclusters (stackDescriptors (X.map (dc (mkSiftFull s)))) })) := by
  constructor
  · intro h
    simp only [fit, kmeansFit]
    rw [if_pos h]
  · intro h1 h2
    have hcond : ¬((stackDescriptors (X.map (dc (mkSiftFull s)))).length < s.kmeans_nclusters ∨
        s.kmeans_nclusters = 0) := by
      push_neg
      exact ⟨h1, h2⟩
    simp only [fit, kmeansFit]
    rw [if_neg hcond]
    exact ⟨rfl, rfl⟩

/-- Witness for the amended C3: the default instance (`k = 5`) on a batch
with an empty pool fails with `ValueError`; an instance with `k = 1` on a
batch pooling three descriptors fits successfully. -/
theorem C3_fit_pool_check_witness :
    (fit dcW learnW initDefault [1]).snd = .error .valueError ∧
    (fit dcW learnW (init 0 3 (4/100) 10 (8/5) 1) [0]).snd = .ok () :=
  ⟨(C3_fit_pool_check dcW learnW initDefault [1]).1 (by decide),
   ((C3_fit_pool_check dcW learnW (init 0 3 (4/100) 10 (8/5) 1) [0]).2
      (by decide) (by decide)).1⟩

/-! ### Claim C6 -/

/-- An instance with a non-default pyramid depth (`sift_nOctaveLayers = 4`)
and vocabulary size 1. -/
def sC6 : SIFT_FeatureExtractor := init 0 4 (4/100) 10 (8/5) 1

/-- A stand-in extractor whose output depends on the configured pyramid
depth: one descriptor per image at depth 4, two at any other depth. -/
def dcC6 : SiftParams → Image → Option DesArray := fun p _ =>
  if p.nOctaveLayers = 4 then some (.d2 [[0]]) else some (.d2 [[0], [0]])

/-- C6: on an instance whose `sift_nOctaveLayers` is not the `cv2` default,
`fit` followed by `transform` and `fit_transform` (with the same
deterministic learner) give different matrices on the same batch: `fit`
extracts with the configured depth 4, while `fit_transform` builds its
extractor from `nfeatures` alone, so extraction runs at the library default
depth 3 and the two paths see different descriptors. -/
theorem C6_code_divergence :
    (fit dcC6 learnW sC6 [0]).snd = .ok () ∧
    (transform dcC6 (fit dcC6 learnW sC6 [0]).fst [0]).snd = .ok [[1]] ∧
    (fit_transform dcC6 learnW sC6 [0]).snd = .ok [[2]] ∧
    ([[2]] : List (List Nat)) ≠ [[1]] := by
  refine ⟨rfl, rfl, rfl, by decide⟩

/-! ### Claim C7 -/

/-- An instance whose five extractor parameters are all non-default. -/
def sC7 : SIFT_FeatureExtractor := init 7 4 (1/10) 12 2 3

/-- C7: `fit` stores an extractor configured with all five tuning
parameters, but `fit_transform` stores one built from
`SIFT_create(nfeatures=self.sift_nfeatures)` alone, whose remaining four
parameters are the `cv2` defaults — on `sC7` the two extractor
configurations differ (e.g. at `nOctaveLayers`: 4 configured vs 3
default). -/
theorem C7_code_divergence :
    (fit dcW learnW sC7 []).fst.sift = some (mkSiftFull sC7) ∧
    (fit_transform dcW learnW sC7 []).fst.sift = some (mkSiftNfeaturesOnly sC7) ∧
    (mkSiftFull sC7).nOctaveLayers = 4 ∧
    (mkSiftNfeaturesOnly sC7).nOctaveLayers = 3 ∧
    mkSiftNfeaturesOnly sC7 ≠ mkSiftFull sC7 := by
  refine ⟨rfl, rfl, rfl, rfl, ?_⟩
  intro h
  have h2 := congrArg SiftParams.nOctaveLayers h
  simp [mkSiftFull, mkSiftNfeaturesOnly, sC7, init] at h2

/-! ### Claim C8 -/

/-- C8: `transform` mutates no instance state: the post-call state is the
pre-call state, so in particular the stored extractor configuration and
the clustering model are unchanged. -/
theorem C8_transform_no_mutation
    (dc : SiftParams → Image → Option DesArray)
    (s : SIFT_FeatureExtractor) (X : List Image) :
    (transform dc s X).fst = s ∧
    ((transform dc s X).fst).sift = s.sift ∧
    ((transform dc s X).fst).kmeans = s.kmeans := by
  have h : (transform dc s X).fst = s := by
    cases h : s.sift <;> simp [transform, h]
  exact ⟨h, by rw [h], by rw [h]⟩

/-! ### Claim C9 -/

/-- Helper: after any `fit` call (successful or not), the `sift` and
`kmeans` attributes exist. -/
theorem fit_creates_attrs
    (dc : SiftParams → Image → Option DesArray)
    (learn : Nat → List Vec → List Vec)
    (s : SIFT_FeatureExtractor) (X : List Image) :
    ((fit dc learn s X).fst.sift).isSome = true ∧
    ((fit dc learn s X).fst.kmeans).isSome = true := by
  simp only [fit]
  rcases kmeansFit learn s.kmeans_nclusters
      (stackDescriptors (X.map (dc (mkSiftFull s)))) with e | m <;> simp

/-- Helper: after any `fit_transform` call (successful or not), the `sift`
and `kmeans` attributes exist. -/
theorem fit_transform_creates_attrs
    (dc : SiftParams → Image → Option DesArray)
    (learn : Nat → List Vec → List Vec)
    (s : SIFT_FeatureExtractor) (X : List Image) :
    ((fit_transform dc learn s X).fst.sift).isSome = true ∧
    ((fit_transform dc learn s X).fst.kmeans).isSome = true := by
  simp only [fit_transform]
  rcases kmeansFit learn s.kmeans_nclusters
      (stackDescriptors (X.map (dc (mkSiftNfeaturesOnly s)))) with e | m <;> simp

/-- C9: immediately after construction an instance holds exactly the six
configuration values and neither a `sift` extractor nor a `kmeans` model;
both attributes come into existence on a `fit` or `fit_transform` call. -/
theorem C9_init_state
    (nf nOct : Int) (ct et sg : ℚ) (k : Nat) :
    (init nf nOct ct et sg k).sift_nfeatures = nf ∧
    (init nf nOct ct et sg k).sift_nOctaveLayers = nOct ∧
    (init nf nOct ct et sg k).sift_contrastThreshold = ct ∧
    (init nf nOct ct et sg k).sift_edgeThreshold = et ∧
    (init nf nOct ct et sg k).sift_sigma = sg ∧
    (init nf nOct ct et sg k).kmeans_nclusters = k ∧
    (init nf nOct ct et sg k).sift = none ∧
    (init nf nOct ct et sg k).kmeans = none ∧
    ∀ (dc : SiftParams → Image → Option DesArray)
      (learn : Nat → List Vec → List Vec) (X : List Image),
      ((fit dc learn (init nf nOct ct et sg k) X).fst.sift).isSome = true ∧
      ((fit dc learn (init nf nOct ct et sg k) X).fst.kmeans).isSome = true ∧
      ((fit_transform dc learn (init nf nOct ct et sg k) X).fst.sift).isSome = true ∧
      ((fit_transform dc learn (init nf nOct ct et sg k) X).fst.kmeans).isSome = true := by
  refine ⟨rfl, rfl, rfl, rfl, rfl, rfl, rfl, rfl, ?_⟩
  intro dc learn X
  obtain ⟨h1, h2⟩ := fit_creates_attrs dc learn (init nf nOct ct et sg k) X
  obtain ⟨h3, h4⟩ := fit_transform_creates_attrs dc learn (init nf nOct ct et sg k) X
  exact ⟨h1, h2, h3, h4⟩

/-! ### Claim C10 -/

/-- C10: the pooling loop shared by `fit` and `fit_transform` contributes
no rows for a `None` result, one row for a 1-dimensional array, and one
row per descriptor for a 2-dimensional array, so the pool has exactly one
row per detected descriptor; and if every extracted row has width 128,
every pool row has width 128. -/
theorem C10_descriptor_pooling (des : List (Option DesArray)) :
    (stackDescriptors des).length = (des.map numDescriptors).sum ∧
    ((∀ da ∈ des, rows128 da = true) →
      ∀ r ∈ stackDescriptors des, r.length = 128) := by
  constructor
  · rw [stackDescriptors_eq_flatten, List.length_flatten, List.map_map]
    exact congrArg List.sum
      (List.map_congr_left fun da _ => (numDescriptors_eq_length_desRows da).symm)
  · intro h128 r hr
    rw [stackDescriptors_eq_flatten, List.mem_flatten] at hr
    obtain ⟨l, hl, hrl⟩ := hr
    obtain ⟨da, hda, rfl⟩ := List.mem_map.mp hl
    have hda128 := h128 da hda
    cases da with
    | none => simp [desRows] at hrl
    | some d =>
      cases d with
      | d1 v =>
        simp only [desRows, List.mem_singleton] at hrl
        subst hrl
        simpa [rows128] using hda128
      | d2 rows =>
        simp only [desRows] at hrl
        simp only [rows128, List.all_eq_true, beq_iff_eq] at hda128
        exact hda128 r hrl

/-- A concrete batch of extraction results: no descriptors, one
1-dimensional descriptor, and a 2-row 2-dimensional array, all of width
128. -/
def desW : List (Option DesArray) :=
  [none, some (.d1 (List.replicate 128 0)),
   some (.d2 [List.replicate 128 1, List.replicate 128 1])]

set_option maxRecDepth 4000 in
/-- Witness for C10: the pool of `desW` has `0 + 1 + 2` rows, all of width
128. -/
theorem C10_descriptor_pooling_witness :
    (stackDescriptors desW).length = (desW.map numDescriptors).sum ∧
    ∀ r ∈ stackDescriptors desW, r.length = 128 :=
  ⟨(C10_descriptor_pooling desW).1, (C10_descriptor_pooling desW).2 (by decide)⟩

end SIFTExt
